import Mathlib

/-!
Shallow embedding of the segment-analysis core of the `segmentator` repository:
`src/analysis/analysis.service.ts` (merge engine, ranking and filtering engine,
percentile calculator, batch planner) and `src/analysis/processors/analysis.processor.ts`
(the analysis stage consumer with its auto-clipping trigger).

Modelling conventions:
* JS numbers are modelled as `ℚ`: the embedded code only adds, subtracts,
  multiplies, divides and compares them, and every value the claims touch is
  rational and far from any floating-point rounding boundary.  The one
  exception is `Math.pow(score, 1.5)`, which is irrational-valued and is
  modelled exactly over `ℝ` (hence a few `noncomputable` definitions).
* `Array.prototype.sort` is stable (ES2019).  A stable sort by a consistent
  comparator `c` produces the unique stable order of the total preorder
  `c(a, b) ≤ 0`; we model it with `List.insertionSort`, which is stable for
  exactly such relations.
* Time fields are the repository's canonical `"HH:MM:SS"` strings; `Number(x)`
  on their digit-only fields is modelled by a decimal-digit parse (the empty
  string parses to `0`, as in JS).
-/

namespace Segmentator

/-- JS `Math.round` on an exact rational value: round half toward positive infinity. -/
def jsRound (x : ℚ) : ℤ := ⌊x + 1/2⌋

/-- JS `Math.round` on an exact real value (needed where `Math.pow(·, 1.5)` makes
the rounded quantity irrational). -/
noncomputable def jsRoundR (x : ℝ) : ℤ := ⌊x + 1/2⌋

/-- JS `String.prototype.split(sep)` for a one-character separator, over the
underlying character list.  `"".split(sep)` is `[""]`, as in JS. -/
def splitOnChar (sep : Char) : List Char → List (List Char)
  | [] => [[]]
  | c :: cs =>
    let rest := splitOnChar sep cs
    if c = sep then [] :: rest
    else
      match rest with
      | [] => [[c]]
      | p :: ps => (c :: p) :: ps

/-- JS `Number(field)` on the digit-only fields of a canonical time string;
the empty string parses to `0`, as in JS.  (Non-numeric fields never occur in
the repository's canonical `"HH:MM:SS"` time strings.) -/
def jsNumber (cs : List Char) : ℕ :=
  cs.foldl (fun acc c => acc * 10 + (c.toNat - 48)) 0

/-- `timeToSeconds` (analysis.service.ts): converts `"HH:MM:SS"`, `"MM:SS"` or
`"SS"` to seconds; any other shape falls back to `parts[0] || 0`. -/
def timeToSeconds (timeString : String) : ℚ :=
  let parts := (splitOnChar ':' timeString.data).map jsNumber
  match parts with
  | [h, m, s] => (h : ℚ) * 3600 + (m : ℚ) * 60 + (s : ℚ)
  | [m, s] => (m : ℚ) * 60 + (s : ℚ)
  | p :: _ => (p : ℚ)
  | [] => 0

/-- JS `String.prototype.toLowerCase` (ASCII-adequate for the repository's topics). -/
def jsToLower (s : String) : String := ⟨s.data.map Char.toLower⟩

/-- JS `haystack.includes(needle)`: substring containment. -/
def jsIncludes (haystack needle : String) : Bool := decide (needle.data <:+: haystack.data)

/-- JS `[...new Set(xs)]`: deduplicate, keeping the first occurrence of each
element and preserving first-seen order. -/
def dedupFirstSeen [DecidableEq α] : List α → List α
  | [] => []
  | x :: xs => x :: dedupFirstSeen (xs.filter (· ≠ x))
termination_by l => l.length
decreasing_by simpa using Nat.lt_succ_of_le (xs.length_filter_le _)

/-- The fields of an `AnalyzedSegment` (analysis schema) that the optimization
stage reads.  Metadata fields the embedded algorithms never consult
(`reasoning`, `percentileRank`, `recommendedForExtraction`, `combinationReason`,
`keywordDensity`, `sentimentScore`, `technicalComplexity`) are omitted. -/
structure AnalyzedSegment where
  segmentId : String
  startTime : String
  endTime : String
  duration : ℚ
  informativenessScore : ℚ
  title : String
  summary : String
  keyTopics : List String
  shouldCombineWithNext : Bool
deriving DecidableEq

instance : Inhabited AnalyzedSegment := ⟨⟨"", "", "", 0, 0, "", "", [], false⟩⟩

/-- An `OptimizedSegment` (optimized-segment schema), the result of merging one
or more analyzed segments. -/
structure OptimizedSegment where
  _id : String
  startTime : String
  endTime : String
  duration : ℚ
  combinedSegmentIds : List String
  aggregatedScore : ℚ
  finalTitle : String
  finalSummary : String
  finalKeyTopics : List String
  extractionPriority : ℚ
  rank : ℕ
deriving DecidableEq

instance : Inhabited OptimizedSegment := ⟨⟨"", "", "", 0, [], 0, "", "", [], 0, 0⟩⟩

/-- The two fields of `analysisConfig` that `optimizeSegments` reads.
`minInformativenessScore` is optional in the schema, hence `Option ℚ`. -/
structure AnalysisConfig where
  maxCombinedDuration : ℚ
  minInformativenessScore : Option ℚ

/-- `calculateGroupDuration` (analysis.service.ts): end of the last member minus
start of the first member.  (Computed but not used by `shouldCombine`.) -/
def calculateGroupDuration (segments : List AnalyzedSegment) : ℚ :=
  if segments.length = 0 then 0
  else timeToSeconds segments.getLastI.endTime - timeToSeconds segments.headI.startTime

/-- The topic-overlap criterion of `shouldCombine`: some topic of `segment`
case-insensitively contains or is contained in some topic of `lastSegment`. -/
def hasOverlappingTopics (segment lastSegment : AnalyzedSegment) : Bool :=
  segment.keyTopics.any fun topic =>
    lastSegment.keyTopics.any fun lastTopic =>
      jsIncludes (jsToLower topic) (jsToLower lastTopic) ||
      jsIncludes (jsToLower lastTopic) (jsToLower topic)

/-- `shouldCombine` (analysis.service.ts): an empty group always accepts the
segment; otherwise the duration budget is checked first and is a hard cutoff,
and the remaining criteria are disjunctive.  (The source also computes
`calculateGroupDuration(currentGroup)` into an unused local variable.) -/
def shouldCombine (segment : AnalyzedSegment) (currentGroup : List AnalyzedSegment)
    (maxCombinedDuration : ℚ) : Bool :=
  if currentGroup.length = 0 then true
  else
    let lastSegment := currentGroup.getLastI
    let segmentStartTime := timeToSeconds segment.startTime
    let groupStartTime := timeToSeconds currentGroup.headI.startTime
    let totalDuration := segmentStartTime - groupStartTime + segment.duration
    if maxCombinedDuration < totalDuration then false
    else if lastSegment.shouldCombineWithNext then true
    else if |segment.informativenessScore - lastSegment.informativenessScore| ≤ 2 then true
    else if hasOverlappingTopics segment lastSegment then true
    else if 7 ≤ segment.informativenessScore ∧ 7 ≤ lastSegment.informativenessScore then true
    else false

/-- `Math.pow(score, 1.5)`, the weight used by `calculateAggregatedScore`. -/
noncomputable def jsPow15 (score : ℚ) : ℝ := (score : ℝ) ^ (1.5 : ℝ)

/-- `calculateAggregatedScore` (analysis.service.ts): a `score^1.5`-weighted
average of the scores, rounded to one decimal.  (Only ever called on non-empty
lists: `combineSegments` receives non-empty groups.) -/
noncomputable def calculateAggregatedScore (scores : List ℚ) : ℚ :=
  if scores.length = 1 then scores.headI
  else
    let weights := scores.map jsPow15
    let weightedSum : ℝ := ((scores.zip weights).map fun p => (p.1 : ℝ) * p.2).sum
    let totalWeight : ℝ := weights.sum
    (jsRoundR (weightedSum / totalWeight * 10) : ℚ) / 10

/-- `createCombinedTitle` (analysis.service.ts): single-member groups keep the
member's title; otherwise the title of the highest-scoring member (the
`reduce` keeps the earlier member on ties) plus `" (Combined)"`. -/
def createCombinedTitle (segments : List AnalyzedSegment) : String :=
  if segments.length = 1 then segments.headI.title
  else
    let highestScoringSegment := segments.tail.foldl
      (fun prev current =>
        if prev.informativenessScore < current.informativenessScore then current else prev)
      segments.headI
    highestScoringSegment.title ++ " (Combined)"

/-- `createCombinedSummary` (analysis.service.ts): single-member groups keep the
member's summary; otherwise the non-blank member summaries joined with spaces
plus `" (Combined segments)"`. -/
def createCombinedSummary (segments : List AnalyzedSegment) : String :=
  if segments.length = 1 then segments.headI.summary
  else
    let summaries := (segments.map (·.summary)).filter fun summary => summary.trim ≠ ""
    String.intercalate " " summaries ++ " (Combined segments)"

/-- The comparator `(a, b) => timeToSeconds(a.startTime) − timeToSeconds(b.startTime)`
of `combineSegments`' stable sort, as the total preorder `comparator(a, b) ≤ 0`. -/
def byStartTime (a b : AnalyzedSegment) : Prop :=
  timeToSeconds a.startTime ≤ timeToSeconds b.startTime

instance : DecidableRel byStartTime := fun a b =>
  inferInstanceAs (Decidable (_ ≤ _))

/-- `combineSegments` (analysis.service.ts): a singleton group is copied
field-for-field; a larger group is sorted by start time and aggregated. -/
noncomputable def combineSegments (segments : List AnalyzedSegment) : OptimizedSegment :=
  if segments.length = 1 then
    let segment := segments.headI
    { _id := segment.segmentId
      startTime := segment.startTime
      endTime := segment.endTime
      duration := segment.duration
      combinedSegmentIds := [segment.segmentId]
      aggregatedScore := segment.informativenessScore
      finalTitle := segment.title
      finalSummary := segment.summary
      finalKeyTopics := segment.keyTopics
      extractionPriority := segment.informativenessScore
      rank := 1 }
  else
    let sortedSegments := segments.insertionSort byStartTime
    let firstSegment := sortedSegments.headI
    let lastSegment := sortedSegments.getLastI
    let scores := sortedSegments.map (·.informativenessScore)
    let aggregatedScore := calculateAggregatedScore scores
    let allTopics := sortedSegments.flatMap (·.keyTopics)
    { _id := firstSegment.segmentId
      startTime := firstSegment.startTime
      endTime := lastSegment.endTime
      duration := timeToSeconds lastSegment.endTime - timeToSeconds firstSegment.startTime
      combinedSegmentIds := sortedSegments.map (·.segmentId)
      aggregatedScore := aggregatedScore
      finalTitle := createCombinedTitle sortedSegments
      finalSummary := createCombinedSummary sortedSegments
      finalKeyTopics := dedupFirstSeen allTopics
      extractionPriority := aggregatedScore
      rank := 1 }

/-- The loop of `optimizeSegmentsByMerging` with the pending (not yet emitted)
`currentGroup` made explicit: on acceptance the segment is pushed onto the
group; on rejection the non-empty group is emitted and a fresh group starts. -/
noncomputable def mergeGo (maxCombinedDuration : ℚ) (currentGroup : List AnalyzedSegment) :
    List AnalyzedSegment → List OptimizedSegment
  | [] => if currentGroup.length = 0 then [] else [combineSegments currentGroup]
  | segment :: rest =>
    if shouldCombine segment currentGroup maxCombinedDuration then
      mergeGo maxCombinedDuration (currentGroup ++ [segment]) rest
    else
      (if currentGroup.length = 0 then [] else [combineSegments currentGroup]) ++
        mergeGo maxCombinedDuration [segment] rest

/-- `optimizeSegmentsByMerging` (analysis.service.ts): left-to-right greedy
grouping of adjacent analyzed segments. -/
noncomputable def optimizeSegmentsByMerging (analyzedSegments : List AnalyzedSegment)
    (analysisConfig : AnalysisConfig) : List OptimizedSegment :=
  mergeGo analysisConfig.maxCombinedDuration [] analyzedSegments

/-- `calculatePercentile` (analysis.service.ts): sort ascending, find the first
index holding a value `≥ score`, return `round(index / length * 100)`;
`100` when every value is `< score`. -/
def calculatePercentile (score : ℚ) (allScores : List ℚ) : ℤ :=
  let sortedScores := allScores.insertionSort (· ≤ ·)
  match sortedScores.findIdx? fun s => score ≤ s with
  | none => 100
  | some index => jsRound ((index : ℚ) / (sortedScores.length : ℚ) * 100)

/-- `calculateExtractionPriorityWithRanking` (analysis.service.ts): base score,
`+1` for ranks `≤ 3`, `+0.5` for percentile `≥ 90`, capped at `10`. -/
def calculateExtractionPriorityWithRanking (segment : OptimizedSegment) (rank : ℕ)
    (allScores : List ℚ) : ℚ :=
  let percentile := calculatePercentile segment.aggregatedScore allScores
  let priority := segment.aggregatedScore
  let priority := if rank ≤ 3 then priority + 1 else priority
  let priority := if 90 ≤ percentile then priority + 1/2 else priority
  min priority 10

/-- The final `ranked.map((segment, index) => …)` of `rankAndFilterSegments`,
with the running zero-based index explicit. -/
def assignRanks (allScores : List ℚ) (index : ℕ) :
    List OptimizedSegment → List OptimizedSegment
  | [] => []
  | segment :: rest =>
    { segment with
        rank := index + 1
        extractionPriority :=
          calculateExtractionPriorityWithRanking segment (index + 1) allScores } ::
      assignRanks allScores (index + 1) rest

/-- The comparator of `rankAndFilterSegments`' stable sort — aggregated score
descending, ties by start time ascending — as the total preorder
`comparator(a, b) ≤ 0`. -/
def byScoreThenStart (a b : OptimizedSegment) : Prop :=
  if a.aggregatedScore = b.aggregatedScore then
    timeToSeconds a.startTime ≤ timeToSeconds b.startTime
  else b.aggregatedScore < a.aggregatedScore

instance : DecidableRel byScoreThenStart := fun a b => by
  unfold byScoreThenStart
  infer_instance

/-- `rankAndFilterSegments` (analysis.service.ts): filter by the minimum score,
stable-sort by score descending (ties by start time ascending), then assign
dense ranks and recompute extraction priorities against the pre-filter score
population. -/
def rankAndFilterSegments (optimizedSegments : List OptimizedSegment)
    (minScoreThreshold : ℚ) : List OptimizedSegment :=
  let filtered := optimizedSegments.filter fun segment =>
    minScoreThreshold ≤ segment.aggregatedScore
  let ranked := filtered.insertionSort byScoreThenStart
  let allScores := optimizedSegments.map (·.aggregatedScore)
  assignRanks allScores 0 ranked

/-- JS `x || d` on an optional numeric configuration field: both `undefined`
and `0` are falsy and fall back to the default. -/
def jsOrDefault (x : Option ℚ) (d : ℚ) : ℚ :=
  match x with
  | none => d
  | some v => if v = 0 then d else v

/-- `optimizeSegments` (analysis.service.ts): merge adjacent segments, then rank
and filter with threshold `analysisConfig.minInformativenessScore || 5`.  Its
result is what the analysis stage persists as the run's optimized segments. -/
noncomputable def optimizeSegments (analyzedSegments : List AnalyzedSegment)
    (analysisConfig : AnalysisConfig) : List OptimizedSegment :=
  rankAndFilterSegments (optimizeSegmentsByMerging analyzedSegments analysisConfig)
    (jsOrDefault analysisConfig.minInformativenessScore 5)

/-- A segment prepared for scoring (`SegmentForAnalysis` in analysis.service.ts). -/
structure SegmentForAnalysis where
  id : String
  startTime : String
  endTime : String
  text : String
  duration : ℚ
deriving DecidableEq

/-- One per-segment entry of a scoring response (`SegmentAnalysisResponse['segments']`). -/
structure ScoredSegment where
  segmentId : String
  informativenessScore : ℚ
  keyTopics : List String
  reasoning : String
  shouldCombineWithNext : Bool
deriving DecidableEq

/-- A scoring response (`SegmentAnalysisResponse` of the scoring collaborator). -/
structure SegmentAnalysisResponse where
  segments : List ScoredSegment
  overallSummary : String
  mainTopics : List String
deriving DecidableEq

/-- The batching loop of `processSegmentsInBatches`:
`for (i = 0; i < n; i += batchSize) batches.push(segments.slice(i, i + batchSize))`.
The loop runs at most `n` times (the batch size is at least 1), so the
remaining iteration count `fuel` — initialised to `n` — makes the recursion
structural without changing the result. -/
def chunkGo (batchSize : ℕ) : ℕ → List α → List (List α)
  | _, [] => []
  | 0, _ => []
  | fuel + 1, l => l.take batchSize :: chunkGo batchSize fuel (l.drop batchSize)

/-- The contiguous batches built by `processSegmentsInBatches` (analysis.service.ts):
slices of size `Math.max(1, Math.floor(n / 3))`, in order. -/
def segmentBatches (segments : List SegmentForAnalysis) : List (List SegmentForAnalysis) :=
  chunkGo (max 1 (segments.length / 3)) segments.length segments

/-- `mergeBatchResults` (analysis.service.ts): concatenate per-segment results in
order, join summaries with a space, deduplicate topics keeping first-seen order. -/
def mergeBatchResults (results : List SegmentAnalysisResponse) : SegmentAnalysisResponse :=
  { segments := results.flatMap (·.segments)
    overallSummary := String.intercalate " " (results.map (·.overallSummary))
    mainTopics := dedupFirstSeen (results.flatMap (·.mainTopics)) }

/-- `processSegmentsInBatches` (analysis.service.ts), with the scoring
collaborator (`processSegmentsBatch`, which forwards one batch to the scorer)
abstracted as the function `score`. -/
def processSegmentsInBatches (score : List SegmentForAnalysis → SegmentAnalysisResponse)
    (segments : List SegmentForAnalysis) : SegmentAnalysisResponse :=
  mergeBatchResults ((segmentBatches segments).map score)

/-- `AnalysisJobResult` (analysis.processor.ts). -/
structure AnalysisJobResult where
  transcriptionId : String
  analysisId : String
  status : String
  error : Option String
deriving DecidableEq

/-- The database documents and collaborator outcomes visible to one run of
`AnalysisProcessor.process` (analysis.processor.ts).  Lookups are modelled as
`Option` (a missing document makes the stage throw) and fallible calls as
`Except` (an `error` models a thrown exception). -/
structure AnalysisJobEnv where
  transcriptionId : String
  transcriptionFound : Bool
  processingHistoryFound : Bool
  minInformativenessScore : Option ℚ
  analysisOutcome : Except String (List OptimizedSegment)
  saveOutcome : Except String String
  clippingEnqueue : Except String Unit

/-- The observable effects of one run of `AnalysisProcessor.process`: the value
returned to the queue, the sequence of `processingStatus` values written to the
`ProcessingHistory` record, and whether a clipping job was enqueued. -/
structure AnalysisJobRun where
  result : AnalysisJobResult
  statusWrites : List String
  clippingQueued : Bool
deriving DecidableEq

/-- `triggerAutoClipping` (analysis.processor.ts): filter the saved optimized
segments by `minInformativenessScore || 5`; when none qualify, skip; otherwise
enqueue a clipping job, and catch (log and swallow) any enqueue failure.
Returns whether a job was enqueued; never throws. -/
def triggerAutoClipping (env : AnalysisJobEnv) (optimizedSegments : List OptimizedSegment) :
    Bool :=
  let highValueSegments := optimizedSegments.filter fun segment =>
    jsOrDefault env.minInformativenessScore 5 ≤ segment.aggregatedScore
  if highValueSegments.length = 0 then false
  else
    match env.clippingEnqueue with
    | .ok _ => true
    | .error _ => false

/-- The `catch` branch of `AnalysisProcessor.process`: write `'failed'` to the
processing history when it can be found, and return a failed job result. -/
def analysisJobFailure (env : AnalysisJobEnv) (message : String)
    (writesSoFar : List String) : AnalysisJobRun :=
  { result :=
      { transcriptionId := env.transcriptionId
        analysisId := ""
        status := "failed"
        error := some message }
    statusWrites := writesSoFar ++ if env.processingHistoryFound then ["failed"] else []
    clippingQueued := false }

/-- `AnalysisProcessor.process` (analysis.processor.ts): load the transcription
and its processing history, mark the stage active, analyze, persist the
analysis result, mark the stage completed, then best-effort trigger
auto-clipping and return a completed job result.  Any throw before the
auto-clipping trigger lands in the `catch` branch. -/
def processAnalysisJob (env : AnalysisJobEnv) : AnalysisJobRun :=
  if !env.transcriptionFound then
    analysisJobFailure env ("Transcription not found: " ++ env.transcriptionId) []
  else if !env.processingHistoryFound then
    analysisJobFailure env "Processing history not found" []
  else
    match env.analysisOutcome with
    | .error e => analysisJobFailure env e ["analysis"]
    | .ok optimizedSegments =>
      match env.saveOutcome with
      | .error e => analysisJobFailure env e ["analysis"]
      | .ok savedAnalysisId =>
        { result :=
            { transcriptionId := env.transcriptionId
              analysisId := savedAnalysisId
              status := "completed"
              error := none }
          statusWrites := ["analysis", "completed"]
          clippingQueued := triggerAutoClipping env optimizedSegments }

/-! ### Evaluation helpers -/

theorem timeToSeconds_parts3 (t : String) (h m s : ℕ)
    (hp : (splitOnChar ':' t.data).map jsNumber = [h, m, s]) :
    timeToSeconds t = (h : ℚ) * 3600 + (m : ℚ) * 60 + (s : ℚ) := by
  simp only [timeToSeconds, hp]

theorem tts_0000 : timeToSeconds "00:00:00" = 0 := by
  rw [timeToSeconds_parts3 _ 0 0 0 (by decide)]; norm_num

theorem tts_0030 : timeToSeconds "00:00:30" = 30 := by
  rw [timeToSeconds_parts3 _ 0 0 30 (by decide)]; norm_num

theorem tts_0100 : timeToSeconds "00:01:00" = 60 := by
  rw [timeToSeconds_parts3 _ 0 1 0 (by decide)]; norm_num

theorem tts_0130 : timeToSeconds "00:01:30" = 90 := by
  rw [timeToSeconds_parts3 _ 0 1 30 (by decide)]; norm_num

theorem tts_0200 : timeToSeconds "00:02:00" = 120 := by
  rw [timeToSeconds_parts3 _ 0 2 0 (by decide)]; norm_num

theorem tts_0230 : timeToSeconds "00:02:30" = 150 := by
  rw [timeToSeconds_parts3 _ 0 2 30 (by decide)]; norm_num

/-! ### C7: merging a singleton group copies the segment unchanged -/

/-- Helper: the singleton branch of `combineSegments`, field for field. -/
theorem combineSegments_one (segment : AnalyzedSegment) :
    combineSegments [segment] =
      { _id := segment.segmentId
        startTime := segment.startTime
        endTime := segment.endTime
        duration := segment.duration
        combinedSegmentIds := [segment.segmentId]
        aggregatedScore := segment.informativenessScore
        finalTitle := segment.title
        finalSummary := segment.summary
        finalKeyTopics := segment.keyTopics
        extractionPriority := segment.informativenessScore
        rank := 1 } := rfl

/-- C7: for a group containing exactly one AnalyzedSegment, `combineSegments`
returns an OptimizedSegment whose startTime, endTime, duration, title, summary
and key topics equal those of the segment unchanged (no " (Combined)" or
" (Combined segments)" suffix), whose `combinedSegmentIds` is the singleton
list of that segment's id, and whose `aggregatedScore` (and extraction
priority) equals the segment's own `informativenessScore`. -/
theorem combineSegments_singleton (segment : AnalyzedSegment) :
    combineSegments [segment] =
      { _id := segment.segmentId
        startTime := segment.startTime
        endTime := segment.endTime
        duration := segment.duration
        combinedSegmentIds := [segment.segmentId]
        aggregatedScore := segment.informativenessScore
        finalTitle := segment.title
        finalSummary := segment.summary
        finalKeyTopics := segment.keyTopics
        extractionPriority := segment.informativenessScore
        rank := 1 } :=
  combineSegments_one segment

/-! ### C10: an empty group accepts any segment, with no duration check -/

/-- C10: `shouldCombine` returns `true` unconditionally when the current group
is empty — there is no duration check on that path — so every segment (in
particular one whose own duration exceeds `maxCombinedDuration`) starts a new
group and is emitted as an OptimizedSegment; the merge engine never drops a
segment for being too long. -/
theorem shouldCombine_empty_group_always (segment : AnalyzedSegment) (analysisConfig : AnalysisConfig) :
    shouldCombine segment [] analysisConfig.maxCombinedDuration = true ∧
    (optimizeSegmentsByMerging [segment] analysisConfig).map (·.combinedSegmentIds) =
      [[segment.segmentId]] := by
  constructor
  · rfl
  · show (mergeGo _ [] [segment]).map _ = _
    simp [mergeGo, shouldCombine, combineSegments_one]

/-! ### C2: the duration budget is a hard, first-checked cutoff -/

/-- First segment of the 60s/60s/30s scenario (mirrors the repository's
`maxCombinedDuration` test): 00:00:00–00:01:00, flagged `shouldCombineWithNext`. -/
def c2seg1 : AnalyzedSegment :=
  { segmentId := "segment_1", startTime := "00:00:00", endTime := "00:01:00", duration := 60,
    informativenessScore := 7, title := "Test Segment", summary := "Test summary",
    keyTopics := ["topic1"], shouldCombineWithNext := true }

/-- Second segment: 00:01:00–00:02:00 (60s), flagged `shouldCombineWithNext`. -/
def c2seg2 : AnalyzedSegment :=
  { segmentId := "segment_2", startTime := "00:01:00", endTime := "00:02:00", duration := 60,
    informativenessScore := 8, title := "Test Segment", summary := "Test summary",
    keyTopics := ["topic1"], shouldCombineWithNext := true }

/-- Third segment: 00:02:00–00:02:30 (30s), flagged `shouldCombineWithNext`. -/
def c2seg3 : AnalyzedSegment :=
  { segmentId := "segment_3", startTime := "00:02:00", endTime := "00:02:30", duration := 30,
    informativenessScore := 7, title := "Test Segment", summary := "Test summary",
    keyTopics := ["topic1"], shouldCombineWithNext := true }

theorem c2_sc2 : shouldCombine c2seg2 [c2seg1] 90 = false := by
  norm_num [shouldCombine, c2seg1, c2seg2, List.headI, List.getLastI, tts_0000, tts_0100]

theorem c2_sc3 : shouldCombine c2seg3 [c2seg2] 90 = true := by
  norm_num [shouldCombine, c2seg2, c2seg3, List.headI, List.getLastI, tts_0100, tts_0200]

theorem c2_pair_ids :
    (combineSegments [c2seg2, c2seg3]).combinedSegmentIds = ["segment_2", "segment_3"] := by
  norm_num [combineSegments, byStartTime, c2seg2, c2seg3, tts_0100, tts_0200]

/-- C2: for every non-empty group, the duration check of `shouldCombine` is a
hard cutoff evaluated first: if `segmentStart − groupStart + segmentDuration`
exceeds `maxDuration`, the segment is not combined regardless of any other
criterion (including the last member's `shouldCombineWithNext` flag).  In
particular, three consecutive back-to-back segments of durations 60s, 60s, 30s,
all flagged `shouldCombineWithNext`, merge under a 90s budget into exactly two
groups: `[{seg1}, {seg2, seg3}]`. -/
theorem shouldCombine_duration_cutoff
    (segment : AnalyzedSegment) (currentGroup : List AnalyzedSegment) (maxCombinedDuration : ℚ)
    (hne : currentGroup ≠ [])
    (hdur : maxCombinedDuration <
      timeToSeconds segment.startTime - timeToSeconds currentGroup.headI.startTime +
        segment.duration) :
    shouldCombine segment currentGroup maxCombinedDuration = false ∧
    (optimizeSegmentsByMerging [c2seg1, c2seg2, c2seg3] ⟨90, none⟩).map (·.combinedSegmentIds) =
      [["segment_1"], ["segment_2", "segment_3"]] := by
  constructor
  · simp only [shouldCombine]
    rw [if_neg fun h => hne (List.length_eq_zero.mp h), if_pos hdur]
  · show (mergeGo 90 [] [c2seg1, c2seg2, c2seg3]).map _ = _
    rw [mergeGo, if_pos (show shouldCombine c2seg1 [] 90 = true from rfl),
      List.nil_append, mergeGo]
    rw [if_neg (by simp [c2_sc2]), mergeGo]
    rw [if_pos (show shouldCombine c2seg3 [c2seg2] 90 = true from c2_sc3)]
    simp [mergeGo, combineSegments_one, c2_pair_ids, c2seg1]

/-- Witness for `shouldCombine_duration_cutoff` at a concrete input: segment 2
is rejected from segment 1's group under the 90s budget even though segment 1
is flagged `shouldCombineWithNext`. -/
theorem shouldCombine_duration_cutoff_witness :
    shouldCombine c2seg2 [c2seg1] 90 = false ∧
    (optimizeSegmentsByMerging [c2seg1, c2seg2, c2seg3] ⟨90, none⟩).map (·.combinedSegmentIds) =
      [["segment_1"], ["segment_2", "segment_3"]] :=
  shouldCombine_duration_cutoff c2seg2 [c2seg1] 90 (by simp)
    (by norm_num [c2seg1, c2seg2, List.headI, tts_0000, tts_0100])

/-! ### C4: the 7, 8, 4 scenario needs a chaining criterion such as topic overlap -/

/-- A 30-second segment of the 7/8/4 scenario: back-to-back times, no
`shouldCombineWithNext` flag, with the given score and topics. -/
def c4seg (segmentId : String) (startTime endTime : String) (informativenessScore : ℚ)
    (keyTopics : List String) : AnalyzedSegment :=
  { segmentId := segmentId, startTime := startTime, endTime := endTime, duration := 30,
    informativenessScore := informativenessScore, title := "Test Segment",
    summary := "Test summary", keyTopics := keyTopics, shouldCombineWithNext := false }

/-- Scores 7, 8, 4 with pairwise non-overlapping topics. -/
def c4a1 : AnalyzedSegment := c4seg "segment_1" "00:00:00" "00:00:30" 7 ["alpha"]

def c4a2 : AnalyzedSegment := c4seg "segment_2" "00:00:30" "00:01:00" 8 ["beta"]

def c4a3 : AnalyzedSegment := c4seg "segment_3" "00:01:00" "00:01:30" 4 ["gamma"]

/-- Scores 7, 8, 4 all sharing the topic `"topic1"`, as in the repository's
mock segments. -/
def c4b1 : AnalyzedSegment := c4seg "segment_1" "00:00:00" "00:00:30" 7 ["topic1"]

def c4b2 : AnalyzedSegment := c4seg "segment_2" "00:00:30" "00:01:00" 8 ["topic1"]

def c4b3 : AnalyzedSegment := c4seg "segment_3" "00:01:00" "00:01:30" 4 ["topic1"]

theorem inc_gamma_beta : jsIncludes (jsToLower "gamma") (jsToLower "beta") = false := by decide

theorem inc_beta_gamma : jsIncludes (jsToLower "beta") (jsToLower "gamma") = false := by decide

theorem inc_topic1 : jsIncludes (jsToLower "topic1") (jsToLower "topic1") = true := by decide

theorem c4_sc2 (t1 t2 : List String) :
    shouldCombine (c4seg "segment_2" "00:00:30" "00:01:00" 8 t2)
      [c4seg "segment_1" "00:00:00" "00:00:30" 7 t1] 120 = true := by
  norm_num [shouldCombine, c4seg, List.headI, List.getLastI, tts_0000, tts_0030, abs_le]

theorem c4a_sc3 : shouldCombine c4a3 [c4a1, c4a2] 120 = false := by
  norm_num [shouldCombine, hasOverlappingTopics, c4a1, c4a2, c4a3, c4seg, List.headI,
    List.getLastI, tts_0000, tts_0100, abs_le, inc_gamma_beta, inc_beta_gamma]

theorem c4b_sc3 : shouldCombine c4b3 [c4b1, c4b2] 120 = true := by
  norm_num [shouldCombine, hasOverlappingTopics, c4b1, c4b2, c4b3, c4seg, List.headI,
    List.getLastI, tts_0000, tts_0100, abs_le, inc_topic1]

theorem c4a_pair_ids :
    (combineSegments [c4a1, c4a2]).combinedSegmentIds = ["segment_1", "segment_2"] := by
  norm_num [combineSegments, byStartTime, c4a1, c4a2, c4seg, tts_0000, tts_0030]

theorem c4b_triple_ids :
    (combineSegments [c4b1, c4b2, c4b3]).combinedSegmentIds =
      ["segment_1", "segment_2", "segment_3"] := by
  norm_num [combineSegments, byStartTime, c4b1, c4b2, c4b3, c4seg,
    tts_0000, tts_0030, tts_0100]

/-- C4 counterexample: with scores 7, 8, 4, no `shouldCombineWithNext` flags,
*arbitrary* (here pairwise non-overlapping) topics and a generous 120s budget,
the merge engine does NOT combine all three into one group: segment 3 (score 4)
is compared to the group's last member (score 8), fails every criterion
(|4−8| > 2, no topic overlap, 4 < 7), and starts its own group, yielding two
OptimizedSegments. -/
theorem merge_784_two_groups :
    (optimizeSegmentsByMerging [c4a1, c4a2, c4a3] ⟨120, none⟩).map (·.combinedSegmentIds) =
      [["segment_1", "segment_2"], ["segment_3"]] ∧
    (optimizeSegmentsByMerging [c4a1, c4a2, c4a3] ⟨120, none⟩).length ≠ 1 := by
  have hmain :
      (optimizeSegmentsByMerging [c4a1, c4a2, c4a3] ⟨120, none⟩).map (·.combinedSegmentIds) =
        [["segment_1", "segment_2"], ["segment_3"]] := by
    show (mergeGo 120 [] [c4a1, c4a2, c4a3]).map _ = _
    rw [mergeGo, if_pos (show shouldCombine c4a1 [] 120 = true from rfl),
      List.nil_append, mergeGo]
    rw [if_pos (show shouldCombine c4a2 [c4a1] 120 = true from c4_sc2 _ _)]
    rw [show [c4a1] ++ [c4a2] = [c4a1, c4a2] from rfl, mergeGo]
    rw [if_neg (by simp [c4a_sc3])]
    simp [mergeGo, combineSegments_one, c4a_pair_ids, c4a3, c4seg]
  refine ⟨hmain, fun hlen => ?_⟩
  have := congrArg List.length hmain
  simp [hlen] at this

/-- C4 (amended): grouping compares each new segment only to the group's last
member, so with scores 7, 8, 4 all three land in one group only when some
chaining criterion holds against the last member — in the repository's test it
is the shared key topic `'topic1'` on every mock segment (|8−4| = 4 exceeds the
score-similarity threshold and 4 < 7).  With a shared topic the engine yields
one group of all three; with non-overlapping topics it yields
`[{seg1, seg2}, {seg3}]`. -/
theorem merge_784_shared_topic_one_group :
    (optimizeSegmentsByMerging [c4b1, c4b2, c4b3] ⟨120, none⟩).map (·.combinedSegmentIds) =
      [["segment_1", "segment_2", "segment_3"]] ∧
    (optimizeSegmentsByMerging [c4a1, c4a2, c4a3] ⟨120, none⟩).map (·.combinedSegmentIds) =
      [["segment_1", "segment_2"], ["segment_3"]] := by
  constructor
  · show (mergeGo 120 [] [c4b1, c4b2, c4b3]).map _ = _
    rw [mergeGo, if_pos (show shouldCombine c4b1 [] 120 = true from rfl),
      List.nil_append, mergeGo]
    rw [if_pos (show shouldCombine c4b2 [c4b1] 120 = true from c4_sc2 _ _)]
    rw [show [c4b1] ++ [c4b2] = [c4b1, c4b2] from rfl, mergeGo]
    rw [if_pos (show shouldCombine c4b3 [c4b1, c4b2] 120 = true from c4b_sc3)]
    rw [show [c4b1, c4b2] ++ [c4b3] = [c4b1, c4b2, c4b3] from rfl, mergeGo]
    simp [c4b_triple_ids]
  · show (mergeGo 120 [] [c4a1, c4a2, c4a3]).map _ = _
    rw [mergeGo, if_pos (show shouldCombine c4a1 [] 120 = true from rfl),
      List.nil_append, mergeGo]
    rw [if_pos (show shouldCombine c4a2 [c4a1] 120 = true from c4_sc2 _ _)]
    rw [show [c4a1] ++ [c4a2] = [c4a1, c4a2] from rfl, mergeGo]
    rw [if_neg (by simp [c4a_sc3])]
    simp [mergeGo, combineSegments_one, c4a_pair_ids, c4a3, c4seg]

/-! ### C5: percentile of the minimum is 0; 100 is reserved for scores above all -/

/-- C5 counterexample: `calculatePercentile` applied to the maximum score of the
non-empty population `[3, 5]` returns 50, not 100: the first sorted index with
a value `≥ 5` is 1, giving `round(1/2·100) = 50`; 100 is returned only when the
score strictly exceeds every population member. -/
theorem calculatePercentile_max_not_100 :
    ((5:ℚ) ∈ [(3:ℚ), 5] ∧ ∀ s ∈ [(3:ℚ), 5], s ≤ 5) ∧
    calculatePercentile 5 [3, 5] = 50 ∧ calculatePercentile 5 [3, 5] ≠ 100 := by
  refine ⟨⟨by simp, by intro s hs; simp at hs; rcases hs with rfl | rfl <;> norm_num⟩, ?_, ?_⟩ <;>
    norm_num [calculatePercentile, List.findIdx?_cons, jsRound]

/-- C5 (amended): for every non-empty score population, `calculatePercentile`
applied to the minimum score returns 0, and applied to a score strictly greater
than every population member returns 100 (the in-population maximum instead
returns `round(i/N·100)` for the first sorted index `i` of the maximum — see
the counterexample). -/
theorem calculatePercentile_min_and_above (low top : ℚ) (allScores : List ℚ)
    (hne : allScores ≠ [])
    (hlow : ∀ s ∈ allScores, low ≤ s)
    (htop : ∀ s ∈ allScores, s < top) :
    calculatePercentile low allScores = 0 ∧ calculatePercentile top allScores = 100 := by
  constructor
  · simp only [calculatePercentile]
    cases hs : allScores.insertionSort (· ≤ ·) with
    | nil =>
      have hperm := List.perm_insertionSort (fun a b : ℚ => a ≤ b) allScores
      rw [hs] at hperm
      exact absurd (List.perm_nil.mp hperm.symm) hne
    | cons a t =>
      have ha : low ≤ a := by
        refine hlow a ?_
        have hmem : a ∈ allScores.insertionSort (· ≤ ·) := by
          rw [hs]; exact List.mem_cons_self a t
        simpa using hmem
      rw [List.findIdx?_cons]
      simp [ha, jsRound]
      norm_num
  · simp only [calculatePercentile]
    have hnone : (allScores.insertionSort (· ≤ ·)).findIdx? (fun s => decide (top ≤ s)) = none := by
      rw [List.findIdx?_eq_none_iff]
      intro x hx
      have hxmem : x ∈ allScores := by simpa using hx
      simpa using not_le.mpr (htop x hxmem)
    rw [hnone]

/-- Witness for `calculatePercentile_min_and_above` on the population `[3, 5]`:
the minimum 3 has percentile 0; the strictly-above score 6 has percentile 100. -/
theorem calculatePercentile_min_and_above_witness :
    calculatePercentile 3 [(3:ℚ), 5] = 0 ∧ calculatePercentile 6 [(3:ℚ), 5] = 100 :=
  calculatePercentile_min_and_above 3 6 [3, 5] (by simp)
    (by intro s hs; simp at hs; rcases hs with rfl | rfl <;> norm_num)
    (by intro s hs; simp at hs; rcases hs with rfl | rfl <;> norm_num)

/-! ### C8: the weighted aggregation of [7, 8, 9] -/

theorem rpow_three_halves (x : ℝ) (hx : 0 ≤ x) : x ^ (1.5:ℝ) = x * Real.sqrt x := by
  rw [show (1.5:ℝ) = (1/2) * 3 by norm_num, Real.rpow_mul hx, ← Real.sqrt_eq_rpow,
    show (3:ℝ) = ((3:ℕ):ℝ) by norm_num, Real.rpow_natCast]
  nlinarith [Real.sq_sqrt hx, Real.sqrt_nonneg x]

theorem jsPow15_7 : jsPow15 7 = 7 * Real.sqrt 7 := by
  rw [jsPow15, rpow_three_halves _ (by norm_num)]
  norm_num

theorem jsPow15_8 : jsPow15 8 = 16 * Real.sqrt 2 := by
  rw [jsPow15, rpow_three_halves _ (by norm_num)]
  rw [show (((8:ℚ):ℝ)) = 8 by norm_num,
    show (8:ℝ) = 2^2 * 2 by norm_num, Real.sqrt_mul (by positivity),
    Real.sqrt_sq (by norm_num)]
  ring

theorem jsPow15_9 : jsPow15 9 = 27 := by
  rw [jsPow15, rpow_three_halves _ (by norm_num)]
  rw [show (((9:ℚ):ℝ)) = 9 by norm_num, show (9:ℝ) = 3^2 by norm_num,
    Real.sqrt_sq (by norm_num)]
  norm_num

theorem jsRoundR_eighty_one (y : ℝ) (hy1 : (8.05:ℝ) ≤ y) (hy2 : y < 8.15) :
    jsRoundR (y * 10) = 81 := by
  rw [jsRoundR, Int.floor_eq_iff]
  constructor <;> push_cast <;> nlinarith

theorem sqrt7_bounds : (2.645:ℝ) < Real.sqrt 7 ∧ Real.sqrt 7 < 2.646 := by
  constructor <;>
    nlinarith [Real.sq_sqrt (show (0:ℝ) ≤ 7 by norm_num), Real.sqrt_nonneg (7:ℝ)]

theorem sqrt2_bounds : (1.414:ℝ) < Real.sqrt 2 ∧ Real.sqrt 2 < 1.4143 := by
  constructor <;>
    nlinarith [Real.sq_sqrt (show (0:ℝ) ≤ 2 by norm_num), Real.sqrt_nonneg (2:ℝ)]

theorem calculateAggregatedScore_789_eval : calculateAggregatedScore [7, 8, 9] = 81/10 := by
  obtain ⟨h7l, h7u⟩ := sqrt7_bounds
  obtain ⟨h2l, h2u⟩ := sqrt2_bounds
  have hws : ((([(7:ℚ), 8, 9]).zip (([(7:ℚ), 8, 9]).map jsPow15)).map
        fun p => (p.1 : ℝ) * p.2).sum
      = 49 * Real.sqrt 7 + 128 * Real.sqrt 2 + 243 := by
    simp [jsPow15_7, jsPow15_8, jsPow15_9]
    ring
  have htw : (([(7:ℚ), 8, 9]).map jsPow15).sum
      = 7 * Real.sqrt 7 + 16 * Real.sqrt 2 + 27 := by
    simp [jsPow15_7, jsPow15_8, jsPow15_9]
    ring
  have htwpos : (0:ℝ) < 7 * Real.sqrt 7 + 16 * Real.sqrt 2 + 27 := by nlinarith
  have hY1 : (8.05:ℝ) ≤ (49 * Real.sqrt 7 + 128 * Real.sqrt 2 + 243) /
      (7 * Real.sqrt 7 + 16 * Real.sqrt 2 + 27) := by
    rw [le_div_iff₀ htwpos]; nlinarith
  have hY2 : (49 * Real.sqrt 7 + 128 * Real.sqrt 2 + 243) /
      (7 * Real.sqrt 7 + 16 * Real.sqrt 2 + 27) < 8.15 := by
    rw [div_lt_iff₀ htwpos]; nlinarith
  simp only [calculateAggregatedScore, List.length_cons, List.length_nil]
  rw [if_neg (by norm_num)]
  rw [hws, htw, jsRoundR_eighty_one _ hY1 hY2]
  norm_num

/-- C8: `calculateAggregatedScore` computes the `score^1.5`-weighted average
rounded to one decimal; on `[7, 8, 9]` it yields exactly 8.1, which is strictly
between 8 and 9 and closer to 9 than the arithmetic mean 8 is. -/
theorem calculateAggregatedScore_789 :
    calculateAggregatedScore [7, 8, 9] = 81/10 ∧ (8:ℚ) < 81/10 ∧ (81:ℚ)/10 < 9 ∧
      (9:ℚ) - 81/10 < 9 - ((7:ℚ) + 8 + 9)/3 :=
  ⟨calculateAggregatedScore_789_eval, by norm_num, by norm_num, by norm_num⟩

/-! ### C6: batch splitting and merging -/

theorem chunkGo_flatten (batchSize : ℕ) (hbs : 0 < batchSize) :
    ∀ (fuel : ℕ) (l : List α), l.length ≤ fuel → (chunkGo batchSize fuel l).flatMap id = l := by
  intro fuel
  induction fuel with
  | zero =>
    intro l hl
    rw [List.length_eq_zero.mp (Nat.le_zero.mp hl)]
    rfl
  | succ fuel ih =>
    intro l hl
    cases l with
    | nil => rfl
    | cons x xs =>
      have hdrop : ((x :: xs).drop batchSize).length ≤ fuel := by
        rw [List.length_drop]
        simp only [List.length_cons] at hl ⊢
        omega
      show (((x :: xs).take batchSize) ::
        chunkGo batchSize fuel ((x :: xs).drop batchSize)).flatMap id = x :: xs
      rw [List.flatMap_cons, ih _ hdrop]
      simpa using List.take_append_drop batchSize (x :: xs)

theorem segmentBatches_flatten (segments : List SegmentForAnalysis) :
    (segmentBatches segments).flatMap id = segments :=
  chunkGo_flatten _ (by omega) _ _ le_rfl

theorem dedupFirstSeen_sublist [DecidableEq α] : ∀ l : List α, List.Sublist (dedupFirstSeen l) l := by
  intro l
  induction l using dedupFirstSeen.induct with
  | case1 => simp [dedupFirstSeen]
  | case2 x xs ih =>
    rw [dedupFirstSeen]
    exact (ih.trans (List.filter_sublist xs)).cons₂ x

theorem mem_dedupFirstSeen [DecidableEq α] :
    ∀ (l : List α) (a : α), a ∈ dedupFirstSeen l ↔ a ∈ l := by
  intro l
  induction l using dedupFirstSeen.induct with
  | case1 => simp [dedupFirstSeen]
  | case2 x xs ih =>
    intro a
    rw [dedupFirstSeen]
    by_cases hax : a = x
    · subst hax; simp
    · simp only [List.mem_cons, ih, List.mem_filter]
      simp [hax]


theorem dedupFirstSeen_nodup [DecidableEq α] : ∀ l : List α, (dedupFirstSeen l).Nodup := by
  intro l
  induction l using dedupFirstSeen.induct with
  | case1 => simp [dedupFirstSeen]
  | case2 x xs ih =>
    rw [dedupFirstSeen]
    refine List.Nodup.cons (fun hmem => ?_) ih
    have := (mem_dedupFirstSeen _ _).mp hmem
    simp at this

/-- C6 (amended): the batch planner splits the segment list into contiguous
chunks of size `max(1, ⌊n/3⌋)` — three chunks only when `n` is divisible by 3 —
never re-ordering, and (under the collaborator contract that each chunk's
response has one entry per input segment in input order) the merged result has
exactly as many per-segment entries as the input, in the same order; merged
main topics are deduplicated preserving first-seen order and summaries are
joined with a separating space. -/
theorem processSegmentsInBatches_preserves
    (score : List SegmentForAnalysis → SegmentAnalysisResponse)
    (segments : List SegmentForAnalysis)
    (hcontract : ∀ batch, ((score batch).segments).map (·.segmentId) = batch.map (·.id)) :
    ((processSegmentsInBatches score segments).segments).map (·.segmentId) =
      segments.map (·.id) ∧
    ((processSegmentsInBatches score segments).segments).length = segments.length ∧
    (segmentBatches segments).flatMap id = segments ∧
    ((processSegmentsInBatches score segments).mainTopics).Nodup ∧
    List.Sublist ((processSegmentsInBatches score segments).mainTopics)
      (((segmentBatches segments).map score).flatMap (·.mainTopics)) ∧
    (∀ t, t ∈ (processSegmentsInBatches score segments).mainTopics ↔
      t ∈ ((segmentBatches segments).map score).flatMap (·.mainTopics)) ∧
    (processSegmentsInBatches score segments).overallSummary =
      String.intercalate " " (((segmentBatches segments).map score).map (·.overallSummary)) := by
  have key : ∀ bs : List (List SegmentForAnalysis),
      ((bs.map score).flatMap (·.segments)).map (·.segmentId) =
        (bs.flatMap id).map (·.id) := by
    intro bs
    induction bs with
    | nil => rfl
    | cons b rest ih => simp [ih, hcontract b]
  have hmain : ((processSegmentsInBatches score segments).segments).map (·.segmentId) =
      segments.map (·.id) := by
    show (((segmentBatches segments).map score).flatMap (·.segments)).map (·.segmentId) = _
    rw [key, segmentBatches_flatten]
  refine ⟨hmain, ?_, segmentBatches_flatten segments, dedupFirstSeen_nodup _,
    dedupFirstSeen_sublist _, fun t => mem_dedupFirstSeen _ t, rfl⟩
  have := congrArg List.length hmain
  simpa using this

/-- Witness for `processSegmentsInBatches_preserves`: an order-preserving
identity-style scorer over five segments (five batches of one, since
`max(1, ⌊5/3⌋) = 1`) merges back to five entries in input order. -/
theorem processSegmentsInBatches_preserves_witness :
    ((processSegmentsInBatches
        (fun batch =>
          { segments := batch.map fun s =>
              { segmentId := s.id, informativenessScore := 5, keyTopics := ["general"],
                reasoning := "r", shouldCombineWithNext := false }
            overallSummary := "sum", mainTopics := ["t"] })
        ([("a":String), "b", "c", "d", "e"].map fun i =>
          { id := i, startTime := "00:00:00", endTime := "00:00:30", text := "x",
            duration := 30 })).segments).map (·.segmentId) =
      [("a":String), "b", "c", "d", "e"] := by
  have h := (processSegmentsInBatches_preserves
    (fun batch =>
      { segments := batch.map fun s =>
          { segmentId := s.id, informativenessScore := 5, keyTopics := ["general"],
            reasoning := "r", shouldCombineWithNext := false }
        overallSummary := "sum", mainTopics := ["t"] })
    ([("a":String), "b", "c", "d", "e"].map fun i =>
      { id := i, startTime := "00:00:00", endTime := "00:00:30", text := "x",
        duration := 30 })
    (fun batch => by simp)).1
  rw [h]
  simp

/-- The `c6seg` helper: a segment for the chunk-count counterexample. -/
def c6seg (i : String) : SegmentForAnalysis :=
  { id := i, startTime := "00:00:00", endTime := "00:00:30", text := "x", duration := 30 }

/-- C6 counterexample: four segments are split into four single-segment chunks
(`max(1, ⌊4/3⌋) = 1`), not "three roughly equal chunks". -/
theorem segmentBatches_four_chunks :
    (segmentBatches [c6seg "a", c6seg "b", c6seg "c", c6seg "d"]).length = 4 ∧
    (segmentBatches [c6seg "a", c6seg "b", c6seg "c", c6seg "d"]).length ≠ 3 := by
  constructor <;> simp [segmentBatches, chunkGo]

/-! ### C1: the merge stage partitions the input ids; the filter stage can drop ids -/

theorem combineSegments_ids_perm (g : List AnalyzedSegment) :
    ((combineSegments g).combinedSegmentIds).Perm (g.map (·.segmentId)) := by
  match g with
  | [] => simp [combineSegments]
  | [a] => simp [combineSegments_one]
  | a :: b :: t =>
    rw [combineSegments, if_neg (by simp)]
    exact (List.perm_insertionSort byStartTime (a :: b :: t)).map (·.segmentId)

theorem emit_ids_perm (g : List AnalyzedSegment) :
    (((if g.length = 0 then [] else [combineSegments g]) : List OptimizedSegment).flatMap
        (·.combinedSegmentIds)).Perm (g.map (·.segmentId)) := by
  cases g with
  | nil => simp
  | cons a t =>
    rw [if_neg (by simp)]
    simpa using combineSegments_ids_perm (a :: t)

theorem mergeGo_ids_perm (d : ℚ) :
    ∀ (l g : List AnalyzedSegment),
      ((mergeGo d g l).flatMap (·.combinedSegmentIds)).Perm
        (g.map (·.segmentId) ++ l.map (·.segmentId)) := by
  intro l
  induction l with
  | nil =>
    intro g
    rw [mergeGo]
    simpa using emit_ids_perm g
  | cons s rest ih =>
    intro g
    rw [mergeGo]
    by_cases hsc : shouldCombine s g d = true
    · rw [if_pos hsc]
      simpa using ih (g ++ [s])
    · rw [if_neg hsc, List.flatMap_append]
      have := (emit_ids_perm g).append (ih [s])
      simpa using this

/-- C1 (amended): the ids persisted on the OptimizedSegments of the *merge*
stage (`optimizeSegmentsByMerging`, before rank-and-filter) are exactly the
input AnalyzedSegment ids — a permutation, hence a partition when the input ids
are distinct, each id appearing in exactly one group.  The claim as stated is
false of the final `optimizeSegments` output, because `rankAndFilterSegments`
drops every group whose `aggregatedScore` is below the threshold (see the
counterexample). -/
theorem optimizeSegmentsByMerging_partition (analyzedSegments : List AnalyzedSegment)
    (analysisConfig : AnalysisConfig) :
    ((optimizeSegmentsByMerging analyzedSegments analysisConfig).flatMap
        (·.combinedSegmentIds)).Perm (analyzedSegments.map (·.segmentId)) ∧
    ((analyzedSegments.map (·.segmentId)).Nodup →
      ∀ sid ∈ analyzedSegments.map (·.segmentId),
        ((optimizeSegmentsByMerging analyzedSegments analysisConfig).flatMap
          (·.combinedSegmentIds)).count sid = 1) := by
  have hperm := mergeGo_ids_perm analysisConfig.maxCombinedDuration analyzedSegments []
  simp only [List.map_nil, List.nil_append] at hperm
  refine ⟨hperm, fun hnd sid hsid => ?_⟩
  exact (hperm.count_eq sid).trans (List.count_eq_one_of_mem hnd hsid)

/-- Witness for `optimizeSegmentsByMerging_partition` on the 60s/60s/30s
scenario: the two emitted groups carry exactly the three input ids, and
`"segment_2"` appears exactly once. -/
theorem optimizeSegmentsByMerging_partition_witness :
    ((optimizeSegmentsByMerging [c2seg1, c2seg2, c2seg3] ⟨90, none⟩).flatMap
        (·.combinedSegmentIds)).Perm ["segment_1", "segment_2", "segment_3"] ∧
    ((optimizeSegmentsByMerging [c2seg1, c2seg2, c2seg3] ⟨90, none⟩).flatMap
        (·.combinedSegmentIds)).count "segment_2" = 1 := by
  have h := optimizeSegmentsByMerging_partition [c2seg1, c2seg2, c2seg3] ⟨90, none⟩
  constructor
  · simpa [c2seg1, c2seg2, c2seg3] using h.1
  · exact h.2 (by simp [c2seg1, c2seg2, c2seg3]) "segment_2" (by simp [c2seg2])

/-- A segment whose informativeness score (1) falls below the default minimum
score threshold (5). -/
def lowSeg : AnalyzedSegment :=
  { segmentId := "segment_low", startTime := "00:00:00", endTime := "00:00:30", duration := 30,
    informativenessScore := 1, title := "t", summary := "s", keyTopics := ["topic1"],
    shouldCombineWithNext := false }

/-- C1 counterexample: for the non-empty input `[lowSeg]` (score 1, below the
default threshold 5), the OptimizedSegments persisted by the analysis —
`optimizeSegments`, i.e. the merge output *after* ranking and filtering —
carry no ids at all, so the union of `combinedSegmentIds` is empty and does
not equal the input id set `{"segment_low"}`: the persisted set is not a
partition of the input. -/
theorem optimizeSegments_drops_low_scores :
    (optimizeSegments [lowSeg] ⟨120, none⟩).flatMap (·.combinedSegmentIds) = [] ∧
    [lowSeg].map (·.segmentId) = ["segment_low"] ∧
    (optimizeSegments [lowSeg] ⟨120, none⟩).flatMap (·.combinedSegmentIds) ≠
      [lowSeg].map (·.segmentId) := by
  have hempty :
      (optimizeSegments [lowSeg] ⟨120, none⟩).flatMap (·.combinedSegmentIds) = [] := by
    show (rankAndFilterSegments (mergeGo 120 [] [lowSeg]) (jsOrDefault none 5)).flatMap _ = []
    rw [mergeGo, if_pos (show shouldCombine lowSeg [] 120 = true from rfl), List.nil_append,
      mergeGo, if_neg (by simp), combineSegments_one]
    norm_num [rankAndFilterSegments, jsOrDefault, lowSeg, List.filter_cons, assignRanks]
  refine ⟨hempty, by simp [lowSeg], ?_⟩
  rw [hempty]
  simp [lowSeg]

/-! ### C3: rank-and-filter specification -/

instance : IsTotal OptimizedSegment byScoreThenStart := ⟨fun a b => by
  unfold byScoreThenStart
  by_cases h : a.aggregatedScore = b.aggregatedScore
  · rw [if_pos h, if_pos h.symm]
    exact le_total _ _
  · rw [if_neg h, if_neg (Ne.symm h)]
    exact (lt_or_gt_of_ne h).symm.imp id id⟩

instance : IsTrans OptimizedSegment byScoreThenStart := ⟨fun a b c hab hbc => by
  unfold byScoreThenStart at hab hbc ⊢
  by_cases h1 : a.aggregatedScore = b.aggregatedScore <;>
    by_cases h2 : b.aggregatedScore = c.aggregatedScore
  · rw [if_pos h1] at hab
    rw [if_pos h2] at hbc
    rw [if_pos (h1.trans h2)]
    exact le_trans hab hbc
  · rw [if_neg h2] at hbc
    have hca : c.aggregatedScore < a.aggregatedScore := by rw [h1]; exact hbc
    rw [if_neg (ne_of_gt hca)]
    exact hca
  · rw [if_neg h1] at hab
    have hca : c.aggregatedScore < a.aggregatedScore := by rw [← h2]; exact hab
    rw [if_neg (ne_of_gt hca)]
    exact hca
  · rw [if_neg h1] at hab
    rw [if_neg h2] at hbc
    have hca : c.aggregatedScore < a.aggregatedScore := lt_trans hbc hab
    rw [if_neg (ne_of_gt hca)]
    exact hca⟩

/-- Erase the two fields `rankAndFilterSegments` reassigns, to compare the
remaining content. -/
def clearRanking (segment : OptimizedSegment) : OptimizedSegment :=
  { segment with rank := 0, extractionPriority := 0 }

theorem rankAndFilterSegments_eq (optimizedSegments : List OptimizedSegment) (t : ℚ) :
    rankAndFilterSegments optimizedSegments t =
      assignRanks (optimizedSegments.map (·.aggregatedScore)) 0
        ((optimizedSegments.filter fun s => t ≤ s.aggregatedScore).insertionSort
          byScoreThenStart) := rfl

theorem assignRanks_length (allScores : List ℚ) :
    ∀ (i : ℕ) (l : List OptimizedSegment), (assignRanks allScores i l).length = l.length := by
  intro i l
  induction l generalizing i with
  | nil => rfl
  | cons s rest ih => simp [assignRanks, ih (i + 1)]

theorem assignRanks_map_clear (allScores : List ℚ) :
    ∀ (i : ℕ) (l : List OptimizedSegment),
      (assignRanks allScores i l).map clearRanking = l.map clearRanking := by
  intro i l
  induction l generalizing i with
  | nil => rfl
  | cons s rest ih =>
    show clearRanking _ :: _ = clearRanking s :: _
    rw [ih (i + 1)]
    rfl

theorem assignRanks_map_rank (allScores : List ℚ) :
    ∀ (i : ℕ) (l : List OptimizedSegment),
      (assignRanks allScores i l).map (·.rank) = List.range' (i + 1) l.length := by
  intro i l
  induction l generalizing i with
  | nil => rfl
  | cons s rest ih =>
    show (i + 1) :: _ = _
    rw [ih (i + 1), List.length_cons, List.range']

theorem mem_assignRanks (allScores : List ℚ) :
    ∀ (i : ℕ) (l : List OptimizedSegment) (b : OptimizedSegment),
      b ∈ assignRanks allScores i l →
      ∃ c ∈ l, ∃ j, b = ({ c with
        rank := j,
        extractionPriority := calculateExtractionPriorityWithRanking c j allScores } :
          OptimizedSegment) := by
  intro i l
  induction l generalizing i with
  | nil => intro b hb; simp [assignRanks] at hb
  | cons s rest ih =>
    intro b hb
    rcases List.mem_cons.mp hb with rfl | hmem
    · exact ⟨s, List.mem_cons_self _ _, i + 1, rfl⟩
    · obtain ⟨c, hc, j, hj⟩ := ih (i + 1) b hmem
      exact ⟨c, List.mem_cons_of_mem _ hc, j, hj⟩

theorem assignRanks_pairwise (allScores : List ℚ) :
    ∀ (i : ℕ) (l : List OptimizedSegment), l.Pairwise byScoreThenStart →
      (assignRanks allScores i l).Pairwise byScoreThenStart := by
  intro i l
  induction l generalizing i with
  | nil => intro _; exact List.Pairwise.nil
  | cons s rest ih =>
    intro hp
    rw [List.pairwise_cons] at hp
    refine List.Pairwise.cons (fun b hb => ?_) (ih (i + 1) hp.2)
    obtain ⟨c, hc, j, rfl⟩ := mem_assignRanks allScores (i + 1) rest b hb
    exact hp.1 c hc

theorem assignRanks_get (allScores : List ℚ) :
    ∀ (i : ℕ) (l : List OptimizedSegment) (k : ℕ) (hk1 : k < l.length)
      (hk2 : k < (assignRanks allScores i l).length),
      (assignRanks allScores i l).get ⟨k, hk2⟩ =
        { l.get ⟨k, hk1⟩ with
            rank := i + k + 1
            extractionPriority :=
              calculateExtractionPriorityWithRanking (l.get ⟨k, hk1⟩) (i + k + 1) allScores } := by
  intro i l
  induction l generalizing i with
  | nil => intro k hk1 _; exact absurd hk1 (by simp)
  | cons s rest ih =>
    intro k hk1 hk2
    cases k with
    | zero => rfl
    | succ k =>
      have hk1' : k < rest.length := Nat.lt_of_succ_lt_succ hk1
      have hk2' : k < (assignRanks allScores (i + 1) rest).length := by
        rw [assignRanks_length]; exact hk1'
      have := ih (i + 1) k hk1' hk2'
      show (assignRanks allScores (i + 1) rest).get ⟨k, hk2'⟩ = _
      rw [this, show i + 1 + k + 1 = i + (k + 1) + 1 from by omega]
      rfl

theorem calcPrio_formula (segment : OptimizedSegment) (rank : ℕ) (allScores : List ℚ) :
    calculateExtractionPriorityWithRanking segment rank allScores =
      min (segment.aggregatedScore + (if rank ≤ 3 then 1 else 0) +
        (if 90 ≤ calculatePercentile segment.aggregatedScore allScores then 1/2 else 0)) 10 := by
  rw [calculateExtractionPriorityWithRanking]
  split_ifs <;> norm_num

/-- C3: `rankAndFilterSegments` keeps exactly the OptimizedSegments with
`aggregatedScore ≥ minScoreThreshold` (the same multiset once the two
reassigned fields `rank`/`extractionPriority` are cleared), orders them by
`aggregatedScore` descending with ties broken by `startTime` ascending,
assigns dense ranks `1..N` in that order, and recomputes `extractionPriority`
as `aggregatedScore`, plus 1 if `rank ≤ 3`, plus 0.5 if the segment's
percentile against the *pre-filter* score population is ≥ 90, capped at 10. -/
theorem rankAndFilterSegments_spec (optimizedSegments : List OptimizedSegment)
    (minScoreThreshold : ℚ) :
    ((rankAndFilterSegments optimizedSegments minScoreThreshold).map clearRanking).Perm
      ((optimizedSegments.filter fun s => minScoreThreshold ≤ s.aggregatedScore).map
        clearRanking) ∧
    (rankAndFilterSegments optimizedSegments minScoreThreshold).Pairwise byScoreThenStart ∧
    (rankAndFilterSegments optimizedSegments minScoreThreshold).map (·.rank) =
      List.range' 1 (rankAndFilterSegments optimizedSegments minScoreThreshold).length ∧
    (∀ (k : ℕ) (hk : k < (rankAndFilterSegments optimizedSegments minScoreThreshold).length),
      ((rankAndFilterSegments optimizedSegments minScoreThreshold).get
          ⟨k, hk⟩).extractionPriority =
        min (((rankAndFilterSegments optimizedSegments minScoreThreshold).get
            ⟨k, hk⟩).aggregatedScore +
          (if k + 1 ≤ 3 then 1 else 0) +
          (if 90 ≤ calculatePercentile
              ((rankAndFilterSegments optimizedSegments minScoreThreshold).get
                ⟨k, hk⟩).aggregatedScore
              (optimizedSegments.map (·.aggregatedScore)) then 1/2 else 0)) 10) := by
  refine ⟨?_, ?_, ?_, ?_⟩
  · have h1 : (rankAndFilterSegments optimizedSegments minScoreThreshold).map clearRanking =
        ((optimizedSegments.filter fun s => minScoreThreshold ≤ s.aggregatedScore).insertionSort
          byScoreThenStart).map clearRanking :=
      assignRanks_map_clear _ 0 _
    rw [h1]
    exact (List.perm_insertionSort byScoreThenStart _).map clearRanking
  · exact assignRanks_pairwise _ 0 _ (List.sorted_insertionSort byScoreThenStart _)
  · have h3 : (rankAndFilterSegments optimizedSegments minScoreThreshold).map (·.rank) =
        List.range' 1
          ((optimizedSegments.filter fun s => minScoreThreshold ≤ s.aggregatedScore).insertionSort
            byScoreThenStart).length :=
      assignRanks_map_rank _ 0 _
    rw [h3]
    congr 1
    exact (assignRanks_length _ 0 _).symm
  · rw [rankAndFilterSegments_eq]
    intro k hk
    have hks : k <
        ((optimizedSegments.filter fun s => minScoreThreshold ≤ s.aggregatedScore).insertionSort
          byScoreThenStart).length := by
      have h := hk
      rwa [assignRanks_length] at h
    rw [assignRanks_get _ 0 _ k hks hk]
    simp [calcPrio_formula, Nat.zero_add]

/-- A rank-and-filter demonstration segment: aggregated score 6 at 00:00:00. -/
def c3a : OptimizedSegment :=
  { _id := "a", startTime := "00:00:00", endTime := "00:00:30", duration := 30,
    combinedSegmentIds := ["a"], aggregatedScore := 6, finalTitle := "A", finalSummary := "sa",
    finalKeyTopics := ["t"], extractionPriority := 6, rank := 1 }

/-- A rank-and-filter demonstration segment: aggregated score 8 at 00:01:00. -/
def c3b : OptimizedSegment :=
  { _id := "b", startTime := "00:01:00", endTime := "00:01:30", duration := 30,
    combinedSegmentIds := ["b"], aggregatedScore := 8, finalTitle := "B", finalSummary := "sb",
    finalKeyTopics := ["t"], extractionPriority := 8, rank := 1 }

theorem c3_len_pos : 0 < (rankAndFilterSegments [c3a, c3b] 5).length := by
  have h := (List.perm_insertionSort byScoreThenStart
    ([c3a, c3b].filter fun s => (5:ℚ) ≤ s.aggregatedScore)).length_eq
  rw [rankAndFilterSegments_eq, assignRanks_length, h]
  norm_num [c3a, c3b, List.filter_cons]

/-- Witness for `rankAndFilterSegments_spec` on two segments scored 6 and 8
with threshold 5: ranks are the dense `1..N`, and the top entry's priority
follows the rank/percentile formula. -/
theorem rankAndFilterSegments_spec_witness :
    ((rankAndFilterSegments [c3a, c3b] 5).map (·.rank) =
      List.range' 1 (rankAndFilterSegments [c3a, c3b] 5).length) ∧
    ((rankAndFilterSegments [c3a, c3b] 5).get ⟨0, c3_len_pos⟩).extractionPriority =
      min (((rankAndFilterSegments [c3a, c3b] 5).get ⟨0, c3_len_pos⟩).aggregatedScore +
        (if 0 + 1 ≤ 3 then 1 else 0) +
        (if 90 ≤ calculatePercentile
            ((rankAndFilterSegments [c3a, c3b] 5).get ⟨0, c3_len_pos⟩).aggregatedScore
            ([c3a, c3b].map (·.aggregatedScore)) then 1/2 else 0)) 10 :=
  ⟨(rankAndFilterSegments_spec [c3a, c3b] 5).2.2.1,
    (rankAndFilterSegments_spec [c3a, c3b] 5).2.2.2 0 c3_len_pos⟩

/-! ### C9: a failed auto-clipping enqueue is swallowed -/

/-- C9: when the analysis job's primary path succeeds (transcription and
history found, analysis and save succeed) but the clipping-queue enqueue
throws, the failure is logged and swallowed: the job still returns status
`'completed'` with the saved analysis id and no error, the processing-status
writes are exactly `['analysis', 'completed']` (the already-persisted
`'completed'` status is never overwritten with `'failed'`), no clipping job is
queued, and the returned result and status writes coincide with those of a run
whose enqueue succeeds — the enqueue error is never promoted to a pipeline
failure. -/
theorem processAnalysisJob_swallows_clipping_failure (env : AnalysisJobEnv)
    (optSegs : List OptimizedSegment) (savedId e : String)
    (ht : env.transcriptionFound = true)
    (hh : env.processingHistoryFound = true)
    (ha : env.analysisOutcome = .ok optSegs)
    (hs : env.saveOutcome = .ok savedId)
    (hq : env.clippingEnqueue = .error e) :
    (processAnalysisJob env).result.status = "completed" ∧
    (processAnalysisJob env).result.analysisId = savedId ∧
    (processAnalysisJob env).result.error = none ∧
    (processAnalysisJob env).statusWrites = ["analysis", "completed"] ∧
    (processAnalysisJob env).clippingQueued = false ∧
    (processAnalysisJob env).result =
      (processAnalysisJob { env with clippingEnqueue := .ok () }).result ∧
    (processAnalysisJob env).statusWrites =
      (processAnalysisJob { env with clippingEnqueue := .ok () }).statusWrites := by
  simp [processAnalysisJob, ht, hh, ha, hs, triggerAutoClipping, hq]

/-- A saved optimized segment above the clipping threshold. -/
def c9optSeg : OptimizedSegment :=
  { _id := "o", startTime := "00:00:00", endTime := "00:00:30", duration := 30,
    combinedSegmentIds := ["o"], aggregatedScore := 8, finalTitle := "t", finalSummary := "s",
    finalKeyTopics := ["k"], extractionPriority := 8, rank := 1 }

/-- An analysis-job environment whose primary path succeeds but whose
clipping-queue enqueue throws. -/
def c9env : AnalysisJobEnv :=
  { transcriptionId := "tr1", transcriptionFound := true, processingHistoryFound := true,
    minInformativenessScore := none, analysisOutcome := .ok [c9optSeg],
    saveOutcome := .ok "analysis1", clippingEnqueue := .error "queue down" }

/-- Witness for `processAnalysisJob_swallows_clipping_failure` on a concrete
environment with a throwing enqueue. -/
theorem processAnalysisJob_swallows_clipping_failure_witness :
    (processAnalysisJob c9env).result.status = "completed" ∧
    (processAnalysisJob c9env).result.analysisId = "analysis1" ∧
    (processAnalysisJob c9env).statusWrites = ["analysis", "completed"] := by
  have h := processAnalysisJob_swallows_clipping_failure c9env [c9optSeg] "analysis1"
    "queue down" rfl rfl rfl rfl rfl
  exact ⟨h.1, h.2.1, h.2.2.2.1⟩

end Segmentator
